import Mathlib

/-
Shallow embedding of the scoped formatting-state machine of src/src/emitterstate.cpp
(the EmitterState class of a YAML emitter).  The stack of open groups, the running
indent, the transient node flags, the document counter and the sticky error are
modelled directly from the source file.  The pieces that live in the class's header
(the generic Setting cells, the two SettingChanges undo logs and SetError) are not
under src/ and are modelled from the spec; each such definition carries a doc
comment starting with "Modelled from the spec:".

Machine-integer note: all counters in the source are std::size_t.  They are
modelled as Nat; no claim exercises values anywhere near 2^64, and the one
subtraction (m_curIndent -= lastIndent in EndedGroup) is guarded in the source by
an assert that the minuend is at least the subtrahend, which the invariant proofs
below establish for the reachable states the claims are about.
-/

namespace YamlCpp

/-- The EMITTER_MANIP enumeration values used by emitterstate.cpp. -/
inductive EMITTER_MANIP
  | Auto
  | EmitNonAscii
  | EscapeNonAscii
  | EscapeAsJson
  | SingleQuoted
  | DoubleQuoted
  | Literal
  | OnOffBool
  | TrueFalseBool
  | YesNoBool
  | LongBool
  | ShortBool
  | UpperCase
  | LowerCase
  | CamelCase
  | LowerNull
  | UpperNull
  | CamelNull
  | TildeNull
  | Dec
  | Hex
  | Oct
  | Block
  | Flow
  | LongKey
deriving DecidableEq

/-- GroupType::value - the kind of an open container. -/
inductive GroupType
  | NoType
  | Seq
  | Map
deriving DecidableEq

/-- FlowType::value - the layout style of an open container. -/
inductive FlowType
  | NoType
  | Flow
  | Block
deriving DecidableEq

/-- The error messages recorded by the code paths of emitterstate.cpp
(ErrorMsg constants referenced at the SetError call sites). -/
inductive ErrorMsg
  | UNEXPECTED_END_SEQ
  | UNEXPECTED_END_MAP
  | UNMATCHED_GROUP_TAG
  | INVALID_TAG
  | INVALID_ANCHOR
deriving DecidableEq

/-- One identifier per scoped-setting member of EmitterState
(m_charset, m_strFmt, ..., m_doublePrecision in the constructor, lines 11-25). -/
inductive SettingId
  | charset
  | strFmt
  | boolFmt
  | boolLengthFmt
  | boolCaseFmt
  | nullFmt
  | intFmt
  | indent
  | preCommentIndent
  | postCommentIndent
  | seqFmt
  | mapFmt
  | mapKeyFmt
  | floatPrecision
  | doublePrecision
deriving DecidableEq

/-- The value held by a scoped setting: an EMITTER_MANIP for the format cells, a
size_t for the numeric cells (indent widths and precisions). -/
inductive SVal
  | manip (m : EMITTER_MANIP)
  | nat (n : Nat)
deriving DecidableEq

/-- The manip stored in a setting cell (the format cells always hold one). -/
def svalManip : SVal → EMITTER_MANIP
  | SVal.manip m => m
  | SVal.nat _ => EMITTER_MANIP.Auto

/-- The number stored in a setting cell (the numeric cells always hold one). -/
def svalNat : SVal → Nat
  | SVal.nat n => n
  | SVal.manip _ => 0

/-- The current values of the 13 scoped settings, one cell per SettingId.  Each
source member m_xxx of type Setting is the cell at the matching id. -/
abbrev Settings := SettingId → SVal

/-- Point update of one setting cell (Setting::set writing currentValue). -/
def Settings.set (s : Settings) (i : SettingId) (v : SVal) : Settings :=
  fun j => if j = i then v else s j

/-- Modelled from the spec: one undo action of a Change Log (SettingChange in the
header, not under src/): it re-writes one setting to a stored value when the log
is replayed.  A local-log entry stores the value the setting had just before the
local write; a global-log entry stores the globally written value itself, so that
replaying the global log reasserts any global setting whose current value came
from a local override now leaving scope (spec section 4.2). -/
structure SettingChange where
  id : SettingId
  val : SVal
deriving DecidableEq

/-- Modelled from the spec: SettingChanges::restore (header, not under src/)
replays the recorded undo actions of a log, in the order they were recorded,
each one re-writing its setting to its stored value. -/
def restoreLog (L : List SettingChange) (s : Settings) : Settings :=
  L.foldl (fun acc c => Settings.set acc c.id c.val) s

/-- The stored value of the last entry for setting i in a log, if any. -/
def lastVal : List SettingChange → SettingId → Option SVal
  | [], _ => none
  | c :: L, i =>
    match lastVal L i with
    | some v => some v
    | none => if c.id = i then some c.val else none

/-- The constructor defaults of the 13 settings (emitterstate.cpp lines 11-25;
max_digits10 is 9 for float and 17 for double). -/
def initSettings : Settings := fun i =>
  match i with
  | SettingId.charset => SVal.manip EMITTER_MANIP.EmitNonAscii
  | SettingId.strFmt => SVal.manip EMITTER_MANIP.Auto
  | SettingId.boolFmt => SVal.manip EMITTER_MANIP.TrueFalseBool
  | SettingId.boolLengthFmt => SVal.manip EMITTER_MANIP.LongBool
  | SettingId.boolCaseFmt => SVal.manip EMITTER_MANIP.LowerCase
  | SettingId.nullFmt => SVal.manip EMITTER_MANIP.TildeNull
  | SettingId.intFmt => SVal.manip EMITTER_MANIP.Dec
  | SettingId.indent => SVal.nat 2
  | SettingId.preCommentIndent => SVal.nat 2
  | SettingId.postCommentIndent => SVal.nat 1
  | SettingId.seqFmt => SVal.manip EMITTER_MANIP.Block
  | SettingId.mapFmt => SVal.manip EMITTER_MANIP.Block
  | SettingId.mapKeyFmt => SVal.manip EMITTER_MANIP.Auto
  | SettingId.floatPrecision => SVal.nat 9
  | SettingId.doublePrecision => SVal.nat 17

/-- One open container on the stack (struct Group of the header, whose fields are
all visible in emitterstate.cpp: type, flowType, indent, childCount, longKey,
modifiedSettings). -/
structure Group where
  type : GroupType
  flowType : FlowType
  indent : Nat
  childCount : Nat
  longKey : Bool
  modifiedSettings : List SettingChange
deriving DecidableEq

/-- The state of EmitterState: the members initialized by the constructor
(emitterstate.cpp lines 7-35).  m_isGood/m_lastError are the sticky error pair,
m_groups is the stack of open containers with the head of the list as the top
(the vector's back), m_curIndent the running indent, and the four transient node
flags and m_docCount as in the source. -/
structure EmitterState where
  isGood : Bool
  lastError : Option ErrorMsg
  settings : Settings
  modifiedSettings : List SettingChange
  globalModifiedSettings : List SettingChange
  groups : List Group
  curIndent : Nat
  hasAnchor : Bool
  hasAlias : Bool
  hasTag : Bool
  hasNonContent : Bool
  docCount : Nat

/-- EmitterState::EmitterState() - the constructed initial state. -/
def initState : EmitterState :=
  { isGood := true
    lastError := none
    settings := initSettings
    modifiedSettings := []
    globalModifiedSettings := []
    groups := []
    curIndent := 0
    hasAnchor := false
    hasAlias := false
    hasTag := false
    hasNonContent := false
    docCount := 0 }

/-- Modelled from the spec: EmitterState::SetError (header, not under src/).
The spec states the error is sticky with first-error-wins: once the error flag
is set it is never cleared, the first recorded message never changes, and later
errors are detected but not recorded. -/
def SetError (st : EmitterState) (e : ErrorMsg) : EmitterState :=
  if st.isGood then { st with isGood := false, lastError := some e } else st

/-- EmitterState::SetAnchor (line 55). -/
def SetAnchor (st : EmitterState) : EmitterState := { st with hasAnchor := true }

/-- EmitterState::SetAlias (line 57). -/
def SetAlias (st : EmitterState) : EmitterState := { st with hasAlias := true }

/-- EmitterState::SetTag (line 59). -/
def SetTag (st : EmitterState) : EmitterState := { st with hasTag := true }

/-- EmitterState::SetNonContent (line 61). -/
def SetNonContent (st : EmitterState) : EmitterState := { st with hasNonContent := true }

/-- EmitterState::SetLongKey (lines 63-71): release-build behaviour (the asserts
are no-ops): return unchanged on an empty stack, otherwise set the top group's
longKey flag. -/
def SetLongKey (st : EmitterState) : EmitterState :=
  match st.groups with
  | [] => st
  | g :: rest => { st with groups := { g with longKey := true } :: rest }

/-- EmitterState::ForceFlow (lines 73-80): release-build behaviour: return
unchanged on an empty stack, otherwise force the top group's flowType to Flow. -/
def ForceFlow (st : EmitterState) : EmitterState :=
  match st.groups with
  | [] => st
  | g :: rest => { st with groups := { g with flowType := FlowType.Flow } :: rest }

/-- The effect of StartedNode on the group stack (lines 85-90): bump the top
group's childCount and clear its longKey when the new count is even. -/
def bumpHead : List Group → List Group
  | [] => []
  | g :: rest =>
    let g1 := { g with childCount := g.childCount + 1 }
    (if g1.childCount % 2 = 0 then { g1 with longKey := false } else g1) :: rest

/-- EmitterState::StartedNode (lines 82-96): count a top-level document when the
stack is empty, otherwise bump the top group's child count (clearing longKey on
even counts), then clear all four transient node flags. -/
def StartedNode (st : EmitterState) : EmitterState :=
  let st1 :=
    match st.groups with
    | [] => { st with docCount := st.docCount + 1 }
    | _ :: _ => { st with groups := bumpHead st.groups }
  { st1 with hasAnchor := false, hasAlias := false, hasTag := false, hasNonContent := false }

/-- EmitterState::StartedDoc (lines 115-119): clears anchor, tag and non-content
flags; the alias flag is not touched. -/
def StartedDoc (st : EmitterState) : EmitterState :=
  { st with hasAnchor := false, hasTag := false, hasNonContent := false }

/-- EmitterState::EndedDoc (lines 121-125): same clears as StartedDoc. -/
def EndedDoc (st : EmitterState) : EmitterState :=
  { st with hasAnchor := false, hasTag := false, hasNonContent := false }

/-- EmitterState::ClearModifiedSettings (line 234): m_modifiedSettings.clear().
Modelled from the spec: SettingChanges::clear (header, not under src/) replays
the pending local undo actions and then discards them - this is the mechanism by
which a local write reverts (spec sections 3 and 8: after the enclosing scope is
done, get() again returns the value current just before the local write). -/
def ClearModifiedSettings (st : EmitterState) : EmitterState :=
  { st with settings := restoreLog st.modifiedSettings st.settings, modifiedSettings := [] }

/-- EmitterState::RestoreGlobalModifiedSettings (lines 236-238): replay the
global change log, reasserting every globally modified setting. -/
def RestoreGlobalModifiedSettings (st : EmitterState) : EmitterState :=
  { st with settings := restoreLog st.globalModifiedSettings st.settings }

/-- EmitterState::StartedScalar (lines 127-130). -/
def StartedScalar (st : EmitterState) : EmitterState :=
  ClearModifiedSettings (StartedNode st)

/-- EmitterState::GetIndent (header accessor): the current value of the block
indent setting, a size_t. -/
def GetIndent (st : EmitterState) : Nat := svalNat (st.settings SettingId.indent)

/-- EmitterState::CurGroupFlowType (lines 210-212). -/
def CurGroupFlowType (st : EmitterState) : FlowType :=
  match st.groups with
  | [] => FlowType.NoType
  | g :: _ => g.flowType

/-- EmitterState::CurGroupType (lines 206-208). -/
def CurGroupType (st : EmitterState) : GroupType :=
  match st.groups with
  | [] => GroupType.NoType
  | g :: _ => g.type

/-- EmitterState::CurGroupIndent (lines 214-216). -/
def CurGroupIndent (st : EmitterState) : Nat :=
  match st.groups with
  | [] => 0
  | g :: _ => g.indent

/-- EmitterState::CurGroupChildCount (lines 218-220): note the empty-stack case
returns m_docCount, not zero. -/
def CurGroupChildCount (st : EmitterState) : Nat :=
  match st.groups with
  | [] => st.docCount
  | g :: _ => g.childCount

/-- EmitterState::CurGroupLongKey (lines 222-224). -/
def CurGroupLongKey (st : EmitterState) : Bool :=
  match st.groups with
  | [] => false
  | g :: _ => g.longKey

/-- EmitterState::GetFlowType (lines 366-373): force Flow while inside a flow
group, otherwise the configured seq/map layout default. -/
def GetFlowType (st : EmitterState) (groupType : GroupType) : EMITTER_MANIP :=
  if CurGroupFlowType st = FlowType.Flow then EMITTER_MANIP.Flow
  else
    match groupType with
    | GroupType.Seq => svalManip (st.settings SettingId.seqFmt)
    | _ => svalManip (st.settings SettingId.mapFmt)

/-- The indent of the last (top) group, 0 when the stack is empty - the
expression (m_groups.empty() ? 0 : m_groups.back()->indent) at lines 135-136
and 184. -/
def lastIndentOf : List Group → Nat
  | [] => 0
  | g :: _ => g.indent

/-- EmitterState::StartedGroup (lines 132-157): StartedNode, add the previous
top's indent to the running indent, create the new group, move the pending local
change batch m_modifiedSettings into it, resolve its flow type and capture the
current indent setting, and push it. -/
def StartedGroup (k : GroupType) (st0 : EmitterState) : EmitterState :=
  let st := StartedNode st0
  let lastGroupIndent := lastIndentOf st.groups
  let st2 := { st with curIndent := st.curIndent + lastGroupIndent }
  let g : Group :=
    { type := k
      flowType :=
        if GetFlowType st2 k = EMITTER_MANIP.Block then FlowType.Block else FlowType.Flow
      indent := GetIndent st2
      childCount := 0
      longKey := false
      modifiedSettings := st2.modifiedSettings }
  { st2 with groups := g :: st2.groups, modifiedSettings := [] }

/-- The two conditional SetError calls at the head of EndedGroup (lines 167-172):
a pending tag records INVALID_TAG, a pending anchor records INVALID_ANCHOR
(SetError leaves every flag unchanged, so testing the incoming flags is exact). -/
def errStage (st : EmitterState) : EmitterState :=
  let st1 := if st.hasTag then SetError st ErrorMsg.INVALID_TAG else st
  if st.hasAnchor then SetError st1 ErrorMsg.INVALID_ANCHOR else st1

/-- EmitterState::EndedGroup (lines 159-196).  On an empty stack it records
UNEXPECTED_END_SEQ or UNEXPECTED_END_MAP and returns.  Otherwise the pending
tag/anchor errors are recorded, the top group is popped - its own local change
log is replayed when the popped unique_ptr is destroyed (SettingChanges::clear
runs in the Group destructor; modelled from the spec's requirement that the
popped scope's local writes stop being current) - and then: on a kind mismatch
the function records UNMATCHED_GROUP_TAG and returns at once (line 179), skipping
everything after the block; on a match it subtracts the new top's indent from
the running indent, replays the global change log, clears the pending local
batch and clears the anchor/tag/non-content flags (the alias flag is not
cleared). -/
def EndedGroup (k : GroupType) (st : EmitterState) : EmitterState :=
  match st.groups with
  | [] =>
    if k = GroupType.Seq then SetError st ErrorMsg.UNEXPECTED_END_SEQ
    else SetError st ErrorMsg.UNEXPECTED_END_MAP
  | g :: rest =>
    let st2 := errStage st
    let popped : EmitterState :=
      { st2 with groups := rest, settings := restoreLog g.modifiedSettings st2.settings }
    if g.type = k then
      let st4 := { popped with curIndent := popped.curIndent - lastIndentOf rest }
      let st5 := { st4 with settings := restoreLog st4.globalModifiedSettings st4.settings }
      let st6 :=
        { st5 with settings := restoreLog st5.modifiedSettings st5.settings,
                   modifiedSettings := [] }
      { st6 with hasAnchor := false, hasTag := false, hasNonContent := false }
    else SetError popped ErrorMsg.UNMATCHED_GROUP_TAG

/-- Modelled from the spec: a local write through _Set (header, not under src/)
with FmtScope::Local: record the setting's current value into the pending local
batch m_modifiedSettings (the batch that StartedGroup moves into the group being
opened, line 146) and then write the new value. -/
def SetLocalSetting (c : SettingChange) (st : EmitterState) : EmitterState :=
  { st with
    settings := Settings.set st.settings c.id c.val
    modifiedSettings := st.modifiedSettings ++ [{ id := c.id, val := st.settings c.id }] }

/-- Modelled from the spec: a global write through _Set (header, not under src/)
with FmtScope::Global: write the new value and record the written value itself
into the global change log, so that the log's replay reasserts it (the source
achieves this by setting twice and logging the second change; the comment at
lines 188-189 documents the reassert intent). -/
def SetGlobalSetting (c : SettingChange) (st : EmitterState) : EmitterState :=
  { st with
    settings := Settings.set st.settings c.id c.val
    globalModifiedSettings := st.globalModifiedSettings ++ [c] }

/-- The mutating operations of the EmitterState interface, used to express
reachability: one constructor per public state-changing entry point, with the
two scopes of the per-setting writers represented by a generic accepted write
(a writer that rejects its value leaves the state unchanged and is simply the
absence of an operation). -/
inductive Op
  | setAnchor
  | setAlias
  | setTag
  | setNonContent
  | setLongKey
  | forceFlow
  | startedDoc
  | endedDoc
  | startedNode
  | startedScalar
  | startedGroup (k : GroupType)
  | endedGroup (k : GroupType)
  | setLocal (c : SettingChange)
  | setGlobal (c : SettingChange)
  | clearModified
  | restoreGlobalModified
deriving DecidableEq

/-- Dispatch one operation to its definition. -/
def applyOp : Op → EmitterState → EmitterState
  | Op.setAnchor, st => SetAnchor st
  | Op.setAlias, st => SetAlias st
  | Op.setTag, st => SetTag st
  | Op.setNonContent, st => SetNonContent st
  | Op.setLongKey, st => SetLongKey st
  | Op.forceFlow, st => ForceFlow st
  | Op.startedDoc, st => StartedDoc st
  | Op.endedDoc, st => EndedDoc st
  | Op.startedNode, st => StartedNode st
  | Op.startedScalar, st => StartedScalar st
  | Op.startedGroup k, st => StartedGroup k st
  | Op.endedGroup k, st => EndedGroup k st
  | Op.setLocal c, st => SetLocalSetting c st
  | Op.setGlobal c, st => SetGlobalSetting c st
  | Op.clearModified, st => ClearModifiedSettings st
  | Op.restoreGlobalModified, st => RestoreGlobalModifiedSettings st

/-- Run a sequence of operations left to right. -/
def run (ops : List Op) (st : EmitterState) : EmitterState :=
  ops.foldl (fun s op => applyOp op s) st

/-- Sum of the indent offsets of a list of groups. -/
def indentSum (l : List Group) : Nat := l.foldr (fun g acc => g.indent + acc) 0

/-- Whether one operation, applied in a given state, avoids the unmatched-close
path of EndedGroup (a close whose kind differs from a non-empty stack's top). -/
def notMismatch (op : Op) (st : EmitterState) : Bool :=
  match op with
  | Op.endedGroup k =>
    match st.groups with
    | [] => true
    | g :: _ => decide (g.type = k)
  | _ => true

/-- Whether a run of operations from a given state never takes the
unmatched-close path. -/
def mismatchFreeRun : List Op → EmitterState → Bool
  | [], _ => true
  | op :: ops, st => notMismatch op st && mismatchFreeRun ops (applyOp op st)

/-- Well-nested sequences of container opens and closes: every close's kind
matches the most recent unmatched open. -/
inductive WellNested : List Op → Prop
  | nil : WellNested []
  | grp (k : GroupType) (inner rest : List Op) :
      WellNested inner → WellNested rest →
      WellNested (Op.startedGroup k :: (inner ++ Op.endedGroup k :: rest))

/-- The second stack preserves the shape of the first: same length, identical
below the top, and the top group keeps its kind, indent offset and local change
log (its child count, long-key flag and flow style may differ). -/
def ShapeEq : List Group → List Group → Prop
  | [], [] => True
  | g :: t, g2 :: t2 =>
    g2.type = g.type ∧ g2.indent = g.indent ∧ g2.modifiedSettings = g.modifiedSettings ∧ t2 = t
  | _, _ => False

/-- Open the given kinds innermost-last, then close them all, innermost-first. -/
def middle (ks : List GroupType) : List Op :=
  ks.map Op.startedGroup ++ (ks.reverse.map Op.endedGroup)

/-- The group built and pushed by StartedGroup, expressed over the pre-call
state (lines 140-154): kind as requested, flow style resolved from the current
state, indent captured from the current indent setting, zero children, no long
key, and the pending local change batch moved in. -/
def newGroupOf (k : GroupType) (st : EmitterState) : Group :=
  { type := k
    flowType :=
      if GetFlowType st k = EMITTER_MANIP.Block then FlowType.Block else FlowType.Flow
    indent := GetIndent st
    childCount := 0
    longKey := false
    modifiedSettings := st.modifiedSettings }

/-- Sequences of container open/close pairs that never globally reassign the
setting s, in which local overrides (of any setting, s included) occur as
manipulator prefixes of an emitted node - a scalar or a nested container - the
way the emitter applies local format changes.  The flag is true at top level,
where only global writes of other settings and open/close pairs occur, and
false inside an open container, where scalars and local writes may also occur. -/
inductive C4Ops (s : SettingId) : Bool → List Op → Prop
  | nil (b : Bool) : C4Ops s b []
  | glob (b : Bool) (c : SettingChange) (rest : List Op) :
      ¬ c.id = s → C4Ops s b rest → C4Ops s b (Op.setGlobal c :: rest)
  | scal (ws : List SettingChange) (rest : List Op) :
      C4Ops s false rest →
      C4Ops s false (ws.map Op.setLocal ++ Op.startedScalar :: rest)
  | pair (b : Bool) (ws : List SettingChange) (k : GroupType) (body rest : List Op) :
      C4Ops s false body → C4Ops s b rest →
      C4Ops s b (ws.map Op.setLocal ++ Op.startedGroup k :: (body ++ Op.endedGroup k :: rest))

/-- The indentation invariant maintained by the source (lines 135-137 add the
previous top's indent before pushing, lines 184-186 subtract the new top's
indent after popping): the running indent equals the sum of the indent offsets
of all groups on the stack except the innermost one. -/
def IndentInv (st : EmitterState) : Prop :=
  st.curIndent = indentSum st.groups.tail

/-- A well-nested open/close sequence used as a concrete witness input. -/
def c2Ops : List Op :=
  [Op.startedGroup GroupType.Seq, Op.startedGroup GroupType.Map,
   Op.endedGroup GroupType.Map, Op.endedGroup GroupType.Seq]

/-- Concrete state with two open containers (a Map inside a Seq) and the
non-content transient flag set. -/
def c1St : EmitterState :=
  run [Op.startedGroup GroupType.Seq, Op.startedGroup GroupType.Map, Op.setNonContent] initState

/-- The top (innermost) group of c1St. -/
def c1G : Group :=
  { type := GroupType.Map, flowType := FlowType.Block, indent := 2, childCount := 0,
    longKey := false, modifiedSettings := [] }

/-- The rest of the stack of c1St below the top. -/
def c1Rest : List Group :=
  [{ type := GroupType.Seq, flowType := FlowType.Block, indent := 2, childCount := 1,
     longKey := false, modifiedSettings := [] }]

/-- Concrete state with one open Map container. -/
def c7St : EmitterState := run [Op.startedGroup GroupType.Map] initState

/-- Concrete state with one open Seq container and a pending tag. -/
def c8St : EmitterState := run [Op.startedGroup GroupType.Seq, Op.setTag] initState

/-- Concrete state with one open, flow-forced Seq container. -/
def c6St : EmitterState := run [Op.startedGroup GroupType.Seq, Op.forceFlow] initState

/-- Concrete empty-stack state with the anchor, tag and non-content flags set. -/
def c10St : EmitterState := run [Op.setTag, Op.setAnchor, Op.setNonContent] initState

/-! ## Basic lemmas: run, settings, logs -/

@[simp] theorem run_nil (st : EmitterState) : run [] st = st := rfl

@[simp] theorem run_cons (op : Op) (ops : List Op) (st : EmitterState) :
    run (op :: ops) st = run ops (applyOp op st) := rfl

theorem run_append (l1 l2 : List Op) (st : EmitterState) :
    run (l1 ++ l2) st = run l2 (run l1 st) := by
  induction l1 generalizing st with
  | nil => rfl
  | cons op t ih => simp [ih]

theorem Settings.set_apply (s : Settings) (i : SettingId) (v : SVal) (j : SettingId) :
    Settings.set s i v j = if j = i then v else s j := rfl

@[simp] theorem restoreLog_nil (s : Settings) : restoreLog [] s = s := rfl

theorem restoreLog_cons (c : SettingChange) (L : List SettingChange) (s : Settings) :
    restoreLog (c :: L) s = restoreLog L (Settings.set s c.id c.val) := rfl

theorem lastVal_cons (c : SettingChange) (L : List SettingChange) (i : SettingId) :
    lastVal (c :: L) i =
      match lastVal L i with
      | some v => some v
      | none => if c.id = i then some c.val else none := rfl

/-- Pointwise effect of replaying a log: a setting ends at the stored value of
its last entry in the log, or keeps its incoming value when the log has none. -/
theorem restoreLog_apply (L : List SettingChange) :
    ∀ (s : Settings) (i : SettingId), restoreLog L s i = (lastVal L i).getD (s i) := by
  induction L with
  | nil => intro s i; rfl
  | cons c L ih =>
    intro s i
    rw [restoreLog_cons, ih, lastVal_cons]
    cases h : lastVal L i with
    | some v => simp [h]
    | none =>
      by_cases hi : i = c.id
      · subst hi; simp [h, Settings.set_apply]
      · have hci : ¬ c.id = i := fun hh => hi hh.symm
        simp [h, Settings.set_apply, hi, hci]

theorem lastVal_append_other (L : List SettingChange) (c : SettingChange) (i : SettingId)
    (h : ¬ c.id = i) : lastVal (L ++ [c]) i = lastVal L i := by
  induction L with
  | nil => simp [lastVal, h]
  | cons d t ih => rw [List.cons_append, lastVal_cons, lastVal_cons, ih]

theorem lastVal_append_self (L : List SettingChange) (c : SettingChange) :
    lastVal (L ++ [c]) c.id = some c.val := by
  induction L with
  | nil => simp [lastVal]
  | cons d t ih => rw [List.cons_append, lastVal_cons, ih]

/-! ## Frame lemmas for SetError and errStage -/

@[simp] theorem SetError_settings (st : EmitterState) (e : ErrorMsg) :
    (SetError st e).settings = st.settings := by
  unfold SetError; split <;> rfl

@[simp] theorem SetError_modifiedSettings (st : EmitterState) (e : ErrorMsg) :
    (SetError st e).modifiedSettings = st.modifiedSettings := by
  unfold SetError; split <;> rfl

@[simp] theorem SetError_globalModifiedSettings (st : EmitterState) (e : ErrorMsg) :
    (SetError st e).globalModifiedSettings = st.globalModifiedSettings := by
  unfold SetError; split <;> rfl

@[simp] theorem SetError_groups (st : EmitterState) (e : ErrorMsg) :
    (SetError st e).groups = st.groups := by
  unfold SetError; split <;> rfl

@[simp] theorem SetError_curIndent (st : EmitterState) (e : ErrorMsg) :
    (SetError st e).curIndent = st.curIndent := by
  unfold SetError; split <;> rfl

@[simp] theorem SetError_hasAnchor (st : EmitterState) (e : ErrorMsg) :
    (SetError st e).hasAnchor = st.hasAnchor := by
  unfold SetError; split <;> rfl

@[simp] theorem SetError_hasAlias (st : EmitterState) (e : ErrorMsg) :
    (SetError st e).hasAlias = st.hasAlias := by
  unfold SetError; split <;> rfl

@[simp] theorem SetError_hasTag (st : EmitterState) (e : ErrorMsg) :
    (SetError st e).hasTag = st.hasTag := by
  unfold SetError; split <;> rfl

@[simp] theorem SetError_hasNonContent (st : EmitterState) (e : ErrorMsg) :
    (SetError st e).hasNonContent = st.hasNonContent := by
  unfold SetError; split <;> rfl

@[simp] theorem SetError_docCount (st : EmitterState) (e : ErrorMsg) :
    (SetError st e).docCount = st.docCount := by
  unfold SetError; split <;> rfl

theorem SetError_of_not_good (st : EmitterState) (e : ErrorMsg) (h : st.isGood = false) :
    SetError st e = st := by
  unfold SetError; simp [h]

theorem SetError_isGood (st : EmitterState) (e : ErrorMsg) :
    (SetError st e).isGood = false ∨ SetError st e = st := by
  unfold SetError; split
  · exact Or.inl rfl
  · exact Or.inr rfl

theorem SetError_of_good (st : EmitterState) (e : ErrorMsg) (h : st.isGood = true) :
    SetError st e = { st with isGood := false, lastError := some e } := by
  unfold SetError; simp [h]

theorem SetError_isGood_of_false (st : EmitterState) (e : ErrorMsg) (h : st.isGood = false) :
    (SetError st e).isGood = false := by
  rw [SetError_of_not_good st e h]; exact h

theorem SetError_lastError_of_false (st : EmitterState) (e : ErrorMsg)
    (h : st.isGood = false) : (SetError st e).lastError = st.lastError := by
  rw [SetError_of_not_good st e h]

@[simp] theorem errStage_settings (st : EmitterState) :
    (errStage st).settings = st.settings := by
  unfold errStage; split <;> split <;> simp

@[simp] theorem errStage_modifiedSettings (st : EmitterState) :
    (errStage st).modifiedSettings = st.modifiedSettings := by
  unfold errStage; split <;> split <;> simp

@[simp] theorem errStage_globalModifiedSettings (st : EmitterState) :
    (errStage st).globalModifiedSettings = st.globalModifiedSettings := by
  unfold errStage; split <;> split <;> simp

@[simp] theorem errStage_groups (st : EmitterState) :
    (errStage st).groups = st.groups := by
  unfold errStage; split <;> split <;> simp

@[simp] theorem errStage_curIndent (st : EmitterState) :
    (errStage st).curIndent = st.curIndent := by
  unfold errStage; split <;> split <;> simp

@[simp] theorem errStage_hasAnchor (st : EmitterState) :
    (errStage st).hasAnchor = st.hasAnchor := by
  unfold errStage; split <;> split <;> simp

@[simp] theorem errStage_hasAlias (st : EmitterState) :
    (errStage st).hasAlias = st.hasAlias := by
  unfold errStage; split <;> split <;> simp

@[simp] theorem errStage_hasTag (st : EmitterState) :
    (errStage st).hasTag = st.hasTag := by
  unfold errStage; split <;> split <;> simp

@[simp] theorem errStage_hasNonContent (st : EmitterState) :
    (errStage st).hasNonContent = st.hasNonContent := by
  unfold errStage; split <;> split <;> simp

@[simp] theorem errStage_docCount (st : EmitterState) :
    (errStage st).docCount = st.docCount := by
  unfold errStage; split <;> split <;> simp

theorem errStage_of_flags_false (st : EmitterState)
    (ht : st.hasTag = false) (ha : st.hasAnchor = false) : errStage st = st := by
  unfold errStage; simp [ht, ha]

theorem errStage_of_not_good (st : EmitterState) (h : st.isGood = false) :
    errStage st = st := by
  unfold errStage
  split <;> split <;> simp [SetError_of_not_good, h]

theorem errStage_isGood_of_tag (st : EmitterState) (hg : st.isGood = true)
    (ht : st.hasTag = true) :
    (errStage st).isGood = false ∧ (errStage st).lastError = some ErrorMsg.INVALID_TAG := by
  unfold errStage
  rw [ht]
  simp only [if_true]
  rw [SetError_of_good st ErrorMsg.INVALID_TAG hg]
  split
  · rw [SetError_of_not_good _ _ rfl]
    exact ⟨rfl, rfl⟩
  · exact ⟨rfl, rfl⟩

/-! ## Structural lemmas for StartedNode and StartedGroup -/

@[simp] theorem bumpHead_nil : bumpHead [] = [] := rfl

theorem bumpHead_cons (g : Group) (t : List Group) :
    bumpHead (g :: t) =
      (if (g.childCount + 1) % 2 = 0 then
        { g with childCount := g.childCount + 1, longKey := false }
      else { g with childCount := g.childCount + 1 }) :: t := rfl

@[simp] theorem StartedNode_groups (st : EmitterState) :
    (StartedNode st).groups = bumpHead st.groups := by
  unfold StartedNode
  cases h : st.groups <;> simp [h]

@[simp] theorem StartedNode_settings (st : EmitterState) :
    (StartedNode st).settings = st.settings := by
  unfold StartedNode
  cases h : st.groups <;> simp [h]

@[simp] theorem StartedNode_modifiedSettings (st : EmitterState) :
    (StartedNode st).modifiedSettings = st.modifiedSettings := by
  unfold StartedNode
  cases h : st.groups <;> simp [h]

@[simp] theorem StartedNode_globalModifiedSettings (st : EmitterState) :
    (StartedNode st).globalModifiedSettings = st.globalModifiedSettings := by
  unfold StartedNode
  cases h : st.groups <;> simp [h]

@[simp] theorem StartedNode_curIndent (st : EmitterState) :
    (StartedNode st).curIndent = st.curIndent := by
  unfold StartedNode
  cases h : st.groups <;> simp [h]

@[simp] theorem StartedNode_isGood (st : EmitterState) :
    (StartedNode st).isGood = st.isGood := by
  unfold StartedNode
  cases h : st.groups <;> simp [h]

@[simp] theorem StartedNode_lastError (st : EmitterState) :
    (StartedNode st).lastError = st.lastError := by
  unfold StartedNode
  cases h : st.groups <;> simp [h]

@[simp] theorem StartedNode_hasAnchor (st : EmitterState) :
    (StartedNode st).hasAnchor = false := by
  unfold StartedNode
  cases h : st.groups <;> simp [h]

@[simp] theorem StartedNode_hasAlias (st : EmitterState) :
    (StartedNode st).hasAlias = false := by
  unfold StartedNode
  cases h : st.groups <;> simp [h]

@[simp] theorem StartedNode_hasTag (st : EmitterState) :
    (StartedNode st).hasTag = false := by
  unfold StartedNode
  cases h : st.groups <;> simp [h]

@[simp] theorem StartedNode_hasNonContent (st : EmitterState) :
    (StartedNode st).hasNonContent = false := by
  unfold StartedNode
  cases h : st.groups <;> simp [h]

theorem StartedNode_docCount_nil (st : EmitterState) (h : st.groups = []) :
    (StartedNode st).docCount = st.docCount + 1 := by
  unfold StartedNode
  rw [h]

theorem StartedNode_docCount_cons (st : EmitterState) (g : Group) (t : List Group)
    (h : st.groups = g :: t) : (StartedNode st).docCount = st.docCount := by
  unfold StartedNode
  rw [h]

theorem lastIndentOf_bumpHead (l : List Group) :
    lastIndentOf (bumpHead l) = lastIndentOf l := by
  cases l with
  | nil => rfl
  | cons g t =>
    rw [bumpHead_cons]
    unfold lastIndentOf
    dsimp only
    split <;> rfl

theorem CurGroupFlowType_bumpHead (st st2 : EmitterState)
    (h : st2.groups = bumpHead st.groups) :
    CurGroupFlowType st2 = CurGroupFlowType st := by
  unfold CurGroupFlowType
  rw [h]
  cases hg : st.groups with
  | nil => rfl
  | cons g t =>
    rw [bumpHead_cons]
    dsimp only
    split <;> rfl

theorem GetFlowType_of_same (st st2 : EmitterState) (k : GroupType)
    (hg : st2.groups = bumpHead st.groups) (hs : st2.settings = st.settings) :
    GetFlowType st2 k = GetFlowType st k := by
  unfold GetFlowType
  rw [CurGroupFlowType_bumpHead st st2 hg, hs]

theorem GetFlowType_StartedNode (st : EmitterState) (k : GroupType) :
    GetFlowType (StartedNode st) k = GetFlowType st k := by
  apply GetFlowType_of_same st (StartedNode st) k <;> simp

theorem StartedGroup_groups (k : GroupType) (st : EmitterState) :
    (StartedGroup k st).groups = newGroupOf k st :: bumpHead st.groups := by
  have hd : (StartedGroup k st).groups =
      { type := k
        flowType :=
          if GetFlowType (StartedNode st) k = EMITTER_MANIP.Block then FlowType.Block
          else FlowType.Flow
        indent := GetIndent (StartedNode st)
        childCount := 0
        longKey := false
        modifiedSettings := (StartedNode st).modifiedSettings } :: (StartedNode st).groups := rfl
  rw [hd, GetFlowType_StartedNode]
  unfold newGroupOf
  simp [GetIndent]

theorem StartedGroup_settings (k : GroupType) (st : EmitterState) :
    (StartedGroup k st).settings = st.settings := by
  unfold StartedGroup
  simp

theorem StartedGroup_modifiedSettings (k : GroupType) (st : EmitterState) :
    (StartedGroup k st).modifiedSettings = [] := by
  unfold StartedGroup
  simp

theorem StartedGroup_globalModifiedSettings (k : GroupType) (st : EmitterState) :
    (StartedGroup k st).globalModifiedSettings = st.globalModifiedSettings := by
  unfold StartedGroup
  simp

theorem StartedGroup_curIndent (k : GroupType) (st : EmitterState) :
    (StartedGroup k st).curIndent = st.curIndent + lastIndentOf st.groups := by
  unfold StartedGroup
  simp [lastIndentOf_bumpHead]

theorem StartedGroup_isGood (k : GroupType) (st : EmitterState) :
    (StartedGroup k st).isGood = st.isGood := by
  unfold StartedGroup
  simp

theorem StartedGroup_lastError (k : GroupType) (st : EmitterState) :
    (StartedGroup k st).lastError = st.lastError := by
  unfold StartedGroup
  simp

theorem StartedGroup_hasTag (k : GroupType) (st : EmitterState) :
    (StartedGroup k st).hasTag = false := by
  unfold StartedGroup
  simp

theorem StartedGroup_hasAnchor (k : GroupType) (st : EmitterState) :
    (StartedGroup k st).hasAnchor = false := by
  unfold StartedGroup
  simp

/-! ## Path equations for EndedGroup -/

theorem EndedGroup_nil (k : GroupType) (st : EmitterState) (h : st.groups = []) :
    EndedGroup k st =
      if k = GroupType.Seq then SetError st ErrorMsg.UNEXPECTED_END_SEQ
      else SetError st ErrorMsg.UNEXPECTED_END_MAP := by
  unfold EndedGroup
  rw [h]

theorem EndedGroup_mismatch (k : GroupType) (st : EmitterState) (g : Group)
    (rest : List Group) (hg : st.groups = g :: rest) (hne : ¬ g.type = k) :
    EndedGroup k st =
      SetError
        { errStage st with
          groups := rest
          settings := restoreLog g.modifiedSettings (errStage st).settings }
        ErrorMsg.UNMATCHED_GROUP_TAG := by
  unfold EndedGroup
  rw [hg]
  dsimp only
  rw [if_neg hne]

theorem EndedGroup_match (k : GroupType) (st : EmitterState) (g : Group)
    (rest : List Group) (hg : st.groups = g :: rest) (hty : g.type = k) :
    EndedGroup k st =
      { errStage st with
        groups := rest
        curIndent := st.curIndent - lastIndentOf rest
        settings := restoreLog st.modifiedSettings
          (restoreLog st.globalModifiedSettings
            (restoreLog g.modifiedSettings st.settings))
        modifiedSettings := []
        hasAnchor := false
        hasTag := false
        hasNonContent := false } := by
  unfold EndedGroup
  rw [hg]
  dsimp only
  rw [if_pos hty]
  simp

/-! ## ShapeEq and indentSum helpers -/

theorem shapeEq_refl (l : List Group) : ShapeEq l l := by
  cases l with
  | nil => trivial
  | cons g t => exact ⟨rfl, rfl, rfl, rfl⟩

theorem shapeEq_trans {l1 l2 l3 : List Group} (h1 : ShapeEq l1 l2) (h2 : ShapeEq l2 l3) :
    ShapeEq l1 l3 := by
  cases l1 with
  | nil =>
    cases l2 with
    | nil => exact h2
    | cons g2 t2 => exact absurd h1 (by simp [ShapeEq])
  | cons g1 t1 =>
    cases l2 with
    | nil => exact absurd h1 (by simp [ShapeEq])
    | cons g2 t2 =>
      cases l3 with
      | nil => exact absurd h2 (by simp [ShapeEq])
      | cons g3 t3 =>
        obtain ⟨a1, b1, c1, d1⟩ := h1
        obtain ⟨a2, b2, c2, d2⟩ := h2
        exact ⟨a2.trans a1, b2.trans b1, c2.trans c1, d2.trans d1⟩

theorem shapeEq_bumpHead (l : List Group) : ShapeEq l (bumpHead l) := by
  cases l with
  | nil => trivial
  | cons g t =>
    rw [bumpHead_cons]
    split <;> exact ⟨rfl, rfl, rfl, rfl⟩

theorem indentSum_cons (g : Group) (t : List Group) :
    indentSum (g :: t) = g.indent + indentSum t := rfl

theorem indentSum_eq_last_add_tail (l : List Group) :
    indentSum l = lastIndentOf l + indentSum l.tail := by
  cases l with
  | nil => rfl
  | cons g t => rfl

theorem tail_bumpHead (l : List Group) : (bumpHead l).tail = l.tail := by
  cases l with
  | nil => rfl
  | cons g t =>
    rw [bumpHead_cons]
    rfl

theorem lastIndentOf_eq (l l2 : List Group) (h : ShapeEq l l2) :
    lastIndentOf l2 = lastIndentOf l := by
  cases l with
  | nil =>
    cases l2 with
    | nil => rfl
    | cons g2 t2 => exact absurd h (by simp [ShapeEq])
  | cons g t =>
    cases l2 with
    | nil => exact absurd h (by simp [ShapeEq])
    | cons g2 t2 => exact h.2.1

/-! ## Claim C5 -/

/-- C5 counterexample: the claim is false for topChildCount.  After one
top-level node has started (document count 1), the stack is empty but
CurGroupChildCount returns the document count 1, not the claimed fallback 0
(emitterstate.cpp line 219 returns m_docCount). -/
theorem c5_counterexample :
    (run [Op.startedScalar] initState).groups = [] ∧
    ¬ CurGroupChildCount (run [Op.startedScalar] initState) = 0 := by
  constructor
  · rfl
  · decide

/-- C5 (amended): whenever the group stack is empty, CurGroupChildCount returns
the document count m_docCount (which is 0 only while no top-level node has
started), CurGroupLongKey returns false, CurGroupIndent returns 0,
CurGroupFlowType returns FlowType.NoType and CurGroupType returns
GroupType.NoType. -/
theorem c5_theorem (st : EmitterState) (h : st.groups = []) :
    CurGroupChildCount st = st.docCount ∧ CurGroupLongKey st = false ∧
    CurGroupIndent st = 0 ∧ CurGroupFlowType st = FlowType.NoType ∧
    CurGroupType st = GroupType.NoType := by
  unfold CurGroupChildCount CurGroupLongKey CurGroupIndent CurGroupFlowType CurGroupType
  rw [h]
  exact ⟨rfl, rfl, rfl, rfl, rfl⟩

/-- C5 witness: the amended statement evaluated at the concrete empty-stack
state reached after one top-level scalar. -/
theorem c5_witness :
    CurGroupChildCount (run [Op.startedScalar] initState) =
        (run [Op.startedScalar] initState).docCount ∧
      CurGroupLongKey (run [Op.startedScalar] initState) = false ∧
      CurGroupIndent (run [Op.startedScalar] initState) = 0 ∧
      CurGroupFlowType (run [Op.startedScalar] initState) = FlowType.NoType ∧
      CurGroupType (run [Op.startedScalar] initState) = GroupType.NoType :=
  c5_theorem (run [Op.startedScalar] initState) rfl

/-! ## Claim C10 -/

/-- C10: calling EndedGroup on an empty group stack only records the
UNEXPECTED_END error (and changes nothing at all when an error is already
sticky): the stack, running indent, document count, settings, both change logs
and all four transient flags are untouched, and no INVALID_TAG/INVALID_ANCHOR
check is performed even when the tag or anchor flag is set - the recorded error
is the UNEXPECTED_END one. -/
theorem c10_theorem (st : EmitterState) (k : GroupType) (h : st.groups = []) :
    (EndedGroup k st).groups = st.groups ∧
    (EndedGroup k st).curIndent = st.curIndent ∧
    (EndedGroup k st).docCount = st.docCount ∧
    (EndedGroup k st).settings = st.settings ∧
    (EndedGroup k st).modifiedSettings = st.modifiedSettings ∧
    (EndedGroup k st).globalModifiedSettings = st.globalModifiedSettings ∧
    (EndedGroup k st).hasAnchor = st.hasAnchor ∧
    (EndedGroup k st).hasAlias = st.hasAlias ∧
    (EndedGroup k st).hasTag = st.hasTag ∧
    (EndedGroup k st).hasNonContent = st.hasNonContent ∧
    (st.isGood = false → EndedGroup k st = st) ∧
    (st.isGood = true →
      (EndedGroup k st).isGood = false ∧
      (EndedGroup k st).lastError =
        some (if k = GroupType.Seq then ErrorMsg.UNEXPECTED_END_SEQ
          else ErrorMsg.UNEXPECTED_END_MAP)) := by
  rw [EndedGroup_nil k st h]
  by_cases hk : k = GroupType.Seq
  · simp only [hk, if_true]
    refine ⟨by simp, by simp, by simp, by simp, by simp, by simp, by simp, by simp, by simp,
      by simp, fun hb => SetError_of_not_good st _ hb, fun hb => ?_⟩
    rw [SetError_of_good st _ hb]
    exact ⟨rfl, rfl⟩
  · simp only [hk, if_false]
    refine ⟨by simp, by simp, by simp, by simp, by simp, by simp, by simp, by simp, by simp,
      by simp, fun hb => SetError_of_not_good st _ hb, fun hb => ?_⟩
    rw [SetError_of_good st _ hb]
    exact ⟨rfl, rfl⟩

/-- C10 witness: the theorem evaluated at a concrete empty-stack state in which
the anchor, tag and non-content flags are all set. -/
theorem c10_witness :
    (EndedGroup GroupType.Seq c10St).groups = c10St.groups ∧
    (EndedGroup GroupType.Seq c10St).curIndent = c10St.curIndent ∧
    (EndedGroup GroupType.Seq c10St).docCount = c10St.docCount ∧
    (EndedGroup GroupType.Seq c10St).settings = c10St.settings ∧
    (EndedGroup GroupType.Seq c10St).modifiedSettings = c10St.modifiedSettings ∧
    (EndedGroup GroupType.Seq c10St).globalModifiedSettings = c10St.globalModifiedSettings ∧
    (EndedGroup GroupType.Seq c10St).hasAnchor = c10St.hasAnchor ∧
    (EndedGroup GroupType.Seq c10St).hasAlias = c10St.hasAlias ∧
    (EndedGroup GroupType.Seq c10St).hasTag = c10St.hasTag ∧
    (EndedGroup GroupType.Seq c10St).hasNonContent = c10St.hasNonContent ∧
    (c10St.isGood = false → EndedGroup GroupType.Seq c10St = c10St) ∧
    (c10St.isGood = true →
      (EndedGroup GroupType.Seq c10St).isGood = false ∧
      (EndedGroup GroupType.Seq c10St).lastError =
        some (if GroupType.Seq = GroupType.Seq then ErrorMsg.UNEXPECTED_END_SEQ
          else ErrorMsg.UNEXPECTED_END_MAP)) :=
  c10_theorem c10St GroupType.Seq rfl

/-! ## Claim C7 -/

/-- C7: with no prior error, EndedGroup on an empty stack records the
UNEXPECTED_END error naming the attempted close kind (UNEXPECTED_END_SEQ for a
sequence close, UNEXPECTED_END_MAP for a mapping close); EndedGroup whose kind
differs from the innermost group's kind (with no pending tag or anchor) records
UNMATCHED_GROUP_TAG and still pops that group from the stack. -/
theorem c7_theorem (st : EmitterState) (k : GroupType) (hgood : st.isGood = true) :
    (st.groups = [] →
      (EndedGroup k st).isGood = false ∧
      (EndedGroup k st).lastError =
        some (if k = GroupType.Seq then ErrorMsg.UNEXPECTED_END_SEQ
          else ErrorMsg.UNEXPECTED_END_MAP)) ∧
    (∀ g rest, st.groups = g :: rest → ¬ g.type = k →
      st.hasTag = false → st.hasAnchor = false →
      (EndedGroup k st).isGood = false ∧
      (EndedGroup k st).lastError = some ErrorMsg.UNMATCHED_GROUP_TAG ∧
      (EndedGroup k st).groups = rest) := by
  constructor
  · intro h
    rw [EndedGroup_nil k st h]
    by_cases hk : k = GroupType.Seq
    · simp only [hk, if_true]
      rw [SetError_of_good st _ hgood]
      exact ⟨rfl, rfl⟩
    · simp only [hk, if_false]
      rw [SetError_of_good st _ hgood]
      exact ⟨rfl, rfl⟩
  · intro g rest hg hne ht ha
    rw [EndedGroup_mismatch k st g rest hg hne]
    rw [errStage_of_flags_false st ht ha]
    rw [SetError_of_good
      { st with groups := rest, settings := restoreLog g.modifiedSettings st.settings }
      ErrorMsg.UNMATCHED_GROUP_TAG hgood]
    exact ⟨rfl, rfl, rfl⟩

/-- C7 witness: closing a Seq while a Map is innermost, from the concrete state
with one open Map: the error is UNMATCHED_GROUP_TAG and the Map is popped. -/
theorem c7_witness :
    (EndedGroup GroupType.Seq c7St).isGood = false ∧
    (EndedGroup GroupType.Seq c7St).lastError = some ErrorMsg.UNMATCHED_GROUP_TAG ∧
    (EndedGroup GroupType.Seq c7St).groups = [] :=
  (c7_theorem c7St GroupType.Seq rfl).2
    { type := GroupType.Map, flowType := FlowType.Block, indent := 2, childCount := 0,
      longKey := false, modifiedSettings := [] }
    [] rfl (by decide) rfl rfl

/-! ## Claim C1 -/

/-- C1 counterexample: on the unmatched-close failure the post-pop cleanup does
not run.  In the concrete state with a Map open inside a Seq (running indent 2)
and the non-content flag set, closing with kind Seq takes the mismatch path;
the claim would require the running indent to drop to 0 (2 minus the new top's
offset 2) and the transient flags to be cleared, but the code returns at line
179 leaving the running indent at 2 and the flag set. -/
theorem c1_counterexample :
    ¬ ((EndedGroup GroupType.Seq c1St).curIndent = 0 ∧
       (EndedGroup GroupType.Seq c1St).hasNonContent = false) := by
  decide

/-- C1 (amended): on the UnmatchedContainer failure EndedGroup records the
error and returns immediately after the pop: the group is removed from the
stack and its own local change log is replayed by its destruction, but -
unlike a successful close - the running indent is not adjusted, the global
change log is not replayed, the pending local-change bookkeeping is not
cleared, and the transient node flags are left unchanged. -/
theorem c1_theorem (st : EmitterState) (k : GroupType) (g : Group) (rest : List Group)
    (hg : st.groups = g :: rest) (hne : ¬ g.type = k) :
    (EndedGroup k st).groups = rest ∧
    (EndedGroup k st).curIndent = st.curIndent ∧
    (EndedGroup k st).modifiedSettings = st.modifiedSettings ∧
    (EndedGroup k st).globalModifiedSettings = st.globalModifiedSettings ∧
    (EndedGroup k st).hasAnchor = st.hasAnchor ∧
    (EndedGroup k st).hasAlias = st.hasAlias ∧
    (EndedGroup k st).hasTag = st.hasTag ∧
    (EndedGroup k st).hasNonContent = st.hasNonContent ∧
    (EndedGroup k st).docCount = st.docCount ∧
    (EndedGroup k st).settings = restoreLog g.modifiedSettings st.settings := by
  rw [EndedGroup_mismatch k st g rest hg hne]
  refine ⟨by simp, by simp, by simp, by simp, by simp, by simp, by simp, by simp, by simp,
    by simp⟩

/-- C1 witness: the amended statement evaluated on the concrete mismatched
close of c1St. -/
theorem c1_witness :
    (EndedGroup GroupType.Seq c1St).groups = c1Rest ∧
    (EndedGroup GroupType.Seq c1St).curIndent = c1St.curIndent ∧
    (EndedGroup GroupType.Seq c1St).modifiedSettings = c1St.modifiedSettings ∧
    (EndedGroup GroupType.Seq c1St).globalModifiedSettings = c1St.globalModifiedSettings ∧
    (EndedGroup GroupType.Seq c1St).hasAnchor = c1St.hasAnchor ∧
    (EndedGroup GroupType.Seq c1St).hasAlias = c1St.hasAlias ∧
    (EndedGroup GroupType.Seq c1St).hasTag = c1St.hasTag ∧
    (EndedGroup GroupType.Seq c1St).hasNonContent = c1St.hasNonContent ∧
    (EndedGroup GroupType.Seq c1St).docCount = c1St.docCount ∧
    (EndedGroup GroupType.Seq c1St).settings = restoreLog c1G.modifiedSettings c1St.settings :=
  c1_theorem c1St GroupType.Seq c1G c1Rest rfl (by decide)

/-! ## Claim C2 -/

/-- C2 counterexample: the running indent does not equal the sum of the indent
offsets over all groups on the stack.  After a single push from the initial
state the stack holds one group with indent offset 2 while the running indent
is still 0 (StartedGroup adds the previous top's offset, not the new one). -/
theorem c2_counterexample :
    ¬ (run [Op.startedGroup GroupType.Seq] initState).curIndent =
        indentSum (run [Op.startedGroup GroupType.Seq] initState).groups := by
  decide

theorem indentInv_step (op : Op) (st : EmitterState) (hInv : IndentInv st)
    (hOk : notMismatch op st = true) : IndentInv (applyOp op st) := by
  cases op with
  | setAnchor => exact hInv
  | setAlias => exact hInv
  | setTag => exact hInv
  | setNonContent => exact hInv
  | setLongKey =>
    unfold IndentInv at hInv ⊢
    show (SetLongKey st).curIndent = indentSum (SetLongKey st).groups.tail
    unfold SetLongKey
    cases hG : st.groups with
    | nil => exact hInv
    | cons g t =>
      rw [hG] at hInv
      exact hInv
  | forceFlow =>
    unfold IndentInv at hInv ⊢
    show (ForceFlow st).curIndent = indentSum (ForceFlow st).groups.tail
    unfold ForceFlow
    cases hG : st.groups with
    | nil => exact hInv
    | cons g t =>
      rw [hG] at hInv
      exact hInv
  | startedDoc => exact hInv
  | endedDoc => exact hInv
  | startedNode =>
    unfold IndentInv at hInv ⊢
    show (StartedNode st).curIndent = indentSum (StartedNode st).groups.tail
    rw [StartedNode_curIndent, StartedNode_groups, tail_bumpHead]
    exact hInv
  | startedScalar =>
    unfold IndentInv at hInv ⊢
    show (StartedScalar st).curIndent = indentSum (StartedScalar st).groups.tail
    unfold StartedScalar ClearModifiedSettings
    show (StartedNode st).curIndent = indentSum (StartedNode st).groups.tail
    rw [StartedNode_curIndent, StartedNode_groups, tail_bumpHead]
    exact hInv
  | startedGroup k =>
    unfold IndentInv at hInv ⊢
    show (StartedGroup k st).curIndent = indentSum (StartedGroup k st).groups.tail
    rw [StartedGroup_curIndent, StartedGroup_groups]
    show st.curIndent + lastIndentOf st.groups = indentSum (bumpHead st.groups)
    have h1 : indentSum (bumpHead st.groups) = indentSum st.groups := by
      cases hG : st.groups with
      | nil => rfl
      | cons g t =>
        rw [bumpHead_cons, indentSum_cons, indentSum_cons]
        split <;> rfl
    rw [h1, indentSum_eq_last_add_tail st.groups, hInv]
    omega
  | endedGroup k =>
    unfold IndentInv at hInv ⊢
    show (EndedGroup k st).curIndent = indentSum (EndedGroup k st).groups.tail
    cases hG : st.groups with
    | nil =>
      rw [EndedGroup_nil k st hG]
      split <;> simp <;> exact hInv
    | cons g t =>
      have hty : g.type = k := by
        unfold notMismatch at hOk
        rw [hG] at hOk
        exact of_decide_eq_true hOk
      rw [EndedGroup_match k st g t hG hty]
      rw [hG] at hInv
      show st.curIndent - lastIndentOf t = indentSum t.tail
      rw [show (g :: t).tail = t from rfl] at hInv
      rw [hInv, indentSum_eq_last_add_tail t]
      omega
  | setLocal c => exact hInv
  | setGlobal c => exact hInv
  | clearModified => exact hInv
  | restoreGlobalModified => exact hInv

theorem indentInv_run (ops : List Op) :
    ∀ st : EmitterState, IndentInv st → mismatchFreeRun ops st = true →
      IndentInv (run ops st) := by
  induction ops with
  | nil => intro st h _; exact h
  | cons op rest ih =>
    intro st h hOk
    unfold mismatchFreeRun at hOk
    rw [Bool.and_eq_true] at hOk
    exact ih (applyOp op st) (indentInv_step op st h hOk.1) hOk.2

/-- C2 (amended): in every state reached from the initial state by a run of
operations none of which takes the unmatched-close path, the running indent
m_curIndent equals the sum of the indent offsets of all groups on the stack
except the innermost (topmost) one; in particular StartedGroup and a matching
EndedGroup preserve this invariant. -/
theorem c2_theorem (ops : List Op) (h : mismatchFreeRun ops initState = true) :
    (run ops initState).curIndent = indentSum (run ops initState).groups.tail :=
  indentInv_run ops initState rfl h

/-- C2 witness: the amended invariant evaluated after a concrete well-nested
run. -/
theorem c2_witness :
    (run c2Ops initState).curIndent = indentSum (run c2Ops initState).groups.tail :=
  c2_theorem c2Ops (by decide)

/-! ## Claim C9 -/

theorem wellNested_run (ops : List Op) (h : WellNested ops) :
    ∀ st : EmitterState,
      (run ops st).curIndent = st.curIndent ∧ ShapeEq st.groups (run ops st).groups := by
  induction h with
  | nil => intro st; exact ⟨rfl, shapeEq_refl _⟩
  | grp k inner rest hInner hRest ihInner ihRest =>
    intro st
    have hsplit :
        run (Op.startedGroup k :: (inner ++ Op.endedGroup k :: rest)) st =
          run rest (EndedGroup k (run inner (StartedGroup k st))) := by
      rw [run_cons]
      show run (inner ++ Op.endedGroup k :: rest) (StartedGroup k st) = _
      rw [run_append, run_cons]
      rfl
    rw [hsplit]
    have hmid := ihInner (StartedGroup k st)
    have hpush : (StartedGroup k st).groups = newGroupOf k st :: bumpHead st.groups :=
      StartedGroup_groups k st
    rw [hpush] at hmid
    cases hmg : (run inner (StartedGroup k st)).groups with
    | nil => rw [hmg] at hmid; exact absurd hmid.2 (by simp [ShapeEq])
    | cons g2 t2 =>
      rw [hmg] at hmid
      have hmci := hmid.1
      obtain ⟨hty2, hind2, hlog2, htl2⟩ := hmid.2
      have hty : g2.type = k := hty2
      have hpop := EndedGroup_match k (run inner (StartedGroup k st)) g2 t2 hmg hty
      have hpopci : (EndedGroup k (run inner (StartedGroup k st))).curIndent = st.curIndent := by
        rw [hpop]
        show (run inner (StartedGroup k st)).curIndent - lastIndentOf t2 = st.curIndent
        rw [hmci, StartedGroup_curIndent, htl2, lastIndentOf_bumpHead]
        omega
      have hpopg : (EndedGroup k (run inner (StartedGroup k st))).groups = bumpHead st.groups := by
        rw [hpop]
        exact htl2
      have hfin := ihRest (EndedGroup k (run inner (StartedGroup k st)))
      constructor
      · rw [hfin.1, hpopci]
      · refine shapeEq_trans (shapeEq_bumpHead st.groups) ?_
        have := hfin.2
        rw [hpopg] at this
        exact this

/-- C9: every well-nested sequence of container opens and closes, run from the
initial (empty-stack) state, returns the group stack to empty and the running
indent to 0. -/
theorem c9_theorem (ops : List Op) (h : WellNested ops) :
    (run ops initState).groups = [] ∧ (run ops initState).curIndent = 0 := by
  have h2 := wellNested_run ops h initState
  constructor
  · cases hf : (run ops initState).groups with
    | nil => rfl
    | cons g t =>
      have := h2.2
      rw [hf] at this
      exact absurd this (by simp [ShapeEq, initState])
  · exact h2.1

/-- C9 witness: a concrete well-nested open/close sequence (a Map nested in a
Seq) run from the initial state. -/
theorem c9_witness :
    (run [Op.startedGroup GroupType.Seq, Op.startedGroup GroupType.Map,
      Op.endedGroup GroupType.Map, Op.endedGroup GroupType.Seq] initState).groups = [] ∧
    (run [Op.startedGroup GroupType.Seq, Op.startedGroup GroupType.Map,
      Op.endedGroup GroupType.Map, Op.endedGroup GroupType.Seq] initState).curIndent = 0 :=
  c9_theorem _
    (WellNested.grp GroupType.Seq
      [Op.startedGroup GroupType.Map, Op.endedGroup GroupType.Map] []
      (WellNested.grp GroupType.Map [] [] WellNested.nil WellNested.nil)
      WellNested.nil)

/-! ## Claim C6 -/

theorem GetFlowType_of_flow (st : EmitterState) (k : GroupType)
    (h : CurGroupFlowType st = FlowType.Flow) :
    GetFlowType st k = EMITTER_MANIP.Flow := by
  unfold GetFlowType
  rw [h]
  simp

theorem flow_propagates_push (st : EmitterState) (k : GroupType)
    (h : CurGroupFlowType st = FlowType.Flow) :
    CurGroupFlowType (StartedGroup k st) = FlowType.Flow := by
  unfold CurGroupFlowType
  rw [StartedGroup_groups]
  show (newGroupOf k st).flowType = FlowType.Flow
  unfold newGroupOf
  rw [GetFlowType_of_flow st k h]
  simp

/-- C6: while the innermost group is Flow-styled, resolving the layout of
either container kind yields Flow regardless of the configured sequence and
mapping defaults, and this propagates unconditionally and transitively: after
pushing any further containers of any kinds, the innermost group is still
Flow-styled (so every one of the pushed groups became Flow-styled) and the
layout resolution still yields Flow for every kind. -/
theorem c6_theorem (st : EmitterState) (h : CurGroupFlowType st = FlowType.Flow)
    (ks : List GroupType) :
    CurGroupFlowType (run (ks.map Op.startedGroup) st) = FlowType.Flow ∧
    ∀ k, GetFlowType (run (ks.map Op.startedGroup) st) k = EMITTER_MANIP.Flow := by
  induction ks generalizing st with
  | nil => exact ⟨h, fun k => GetFlowType_of_flow st k h⟩
  | cons k0 ks ih => exact ih (StartedGroup k0 st) (flow_propagates_push st k0 h)

/-- C6 witness: with a flow-forced Seq open and a Map pushed inside it, the
innermost group is Flow-styled and layout resolution returns Flow for a Seq
even though the configured sequence default is Block. -/
theorem c6_witness :
    CurGroupFlowType (run ([GroupType.Map].map Op.startedGroup) c6St) = FlowType.Flow ∧
    GetFlowType (run ([GroupType.Map].map Op.startedGroup) c6St) GroupType.Seq =
      EMITTER_MANIP.Flow :=
  ⟨(c6_theorem c6St rfl [GroupType.Map]).1,
   (c6_theorem c6St rfl [GroupType.Map]).2 GroupType.Seq⟩

/-! ## Claim C8 -/

theorem sticky_error_op (op : Op) (st : EmitterState) (h : st.isGood = false) :
    (applyOp op st).isGood = false ∧ (applyOp op st).lastError = st.lastError := by
  cases op with
  | setAnchor => exact ⟨h, rfl⟩
  | setAlias => exact ⟨h, rfl⟩
  | setTag => exact ⟨h, rfl⟩
  | setNonContent => exact ⟨h, rfl⟩
  | setLongKey =>
    show (SetLongKey st).isGood = false ∧ (SetLongKey st).lastError = st.lastError
    unfold SetLongKey
    cases hG : st.groups with
    | nil => exact ⟨h, rfl⟩
    | cons g t => exact ⟨h, rfl⟩
  | forceFlow =>
    show (ForceFlow st).isGood = false ∧ (ForceFlow st).lastError = st.lastError
    unfold ForceFlow
    cases hG : st.groups with
    | nil => exact ⟨h, rfl⟩
    | cons g t => exact ⟨h, rfl⟩
  | startedDoc => exact ⟨h, rfl⟩
  | endedDoc => exact ⟨h, rfl⟩
  | startedNode =>
    refine ⟨?_, ?_⟩
    · rw [show (applyOp Op.startedNode st).isGood = (StartedNode st).isGood from rfl,
        StartedNode_isGood]
      exact h
    · rw [show (applyOp Op.startedNode st).lastError = (StartedNode st).lastError from rfl,
        StartedNode_lastError]
  | startedScalar =>
    refine ⟨?_, ?_⟩
    · rw [show (applyOp Op.startedScalar st).isGood = (StartedNode st).isGood from rfl,
        StartedNode_isGood]
      exact h
    · rw [show (applyOp Op.startedScalar st).lastError = (StartedNode st).lastError from rfl,
        StartedNode_lastError]
  | startedGroup k =>
    refine ⟨?_, ?_⟩
    · rw [show (applyOp (Op.startedGroup k) st).isGood = (StartedGroup k st).isGood from rfl,
        StartedGroup_isGood]
      exact h
    · rw [show (applyOp (Op.startedGroup k) st).lastError = (StartedGroup k st).lastError
        from rfl, StartedGroup_lastError]
  | endedGroup k =>
    show (EndedGroup k st).isGood = false ∧ (EndedGroup k st).lastError = st.lastError
    cases hG : st.groups with
    | nil =>
      rw [EndedGroup_nil k st hG]
      split <;> rw [SetError_of_not_good st _ h] <;> exact ⟨h, rfl⟩
    | cons g t =>
      by_cases hty : g.type = k
      · rw [EndedGroup_match k st g t hG hty]
        rw [errStage_of_not_good st h]
        exact ⟨h, rfl⟩
      · rw [EndedGroup_mismatch k st g t hG hty]
        rw [errStage_of_not_good st h]
        exact ⟨SetError_isGood_of_false _ _ h, SetError_lastError_of_false _ _ h⟩
  | setLocal c => exact ⟨h, rfl⟩
  | setGlobal c => exact ⟨h, rfl⟩
  | clearModified => exact ⟨h, rfl⟩
  | restoreGlobalModified => exact ⟨h, rfl⟩

/-- C8: first-error-wins.  Once the error flag is set, no later operation
clears it or changes the recorded message; and when several errors fire within
one EndedGroup call (a pending tag making the state invalid, followed by the
structural unmatched or matched close handling), the surfaced message is the
first one, INVALID_TAG. -/
theorem c8_theorem :
    (∀ (st : EmitterState) (ops : List Op), st.isGood = false →
      (run ops st).isGood = false ∧ (run ops st).lastError = st.lastError) ∧
    (∀ (st : EmitterState) (k : GroupType), st.isGood = true → st.hasTag = true →
      ¬ st.groups = [] →
      (EndedGroup k st).isGood = false ∧
      (EndedGroup k st).lastError = some ErrorMsg.INVALID_TAG) := by
  constructor
  · intro st ops
    induction ops generalizing st with
    | nil => intro h; exact ⟨h, rfl⟩
    | cons op rest ih =>
      intro h
      have hstep := sticky_error_op op st h
      have hrest := ih (applyOp op st) hstep.1
      exact ⟨hrest.1, hrest.2.trans hstep.2⟩
  · intro st k hgood htag hne
    have herr := errStage_isGood_of_tag st hgood htag
    cases hG : st.groups with
    | nil => exact absurd hG hne
    | cons g t =>
      by_cases hty : g.type = k
      · rw [EndedGroup_match k st g t hG hty]
        exact ⟨herr.1, herr.2⟩
      · rw [EndedGroup_mismatch k st g t hG hty]
        refine ⟨SetError_isGood_of_false _ _ herr.1, ?_⟩
        have h2 := SetError_lastError_of_false { errStage st with groups := t, settings := restoreLog g.modifiedSettings (errStage st).settings } ErrorMsg.UNMATCHED_GROUP_TAG herr.1
        exact h2.trans herr.2

/-- C8 witness: the sticky error evaluated on a concrete errored state run
through further operations, and the multi-error EndedGroup call (pending tag
plus unmatched close) surfacing INVALID_TAG. -/
theorem c8_witness :
    ((run [Op.endedGroup GroupType.Map, Op.startedGroup GroupType.Seq]
        (EndedGroup GroupType.Seq initState)).isGood = false ∧
      (run [Op.endedGroup GroupType.Map, Op.startedGroup GroupType.Seq]
        (EndedGroup GroupType.Seq initState)).lastError =
        (EndedGroup GroupType.Seq initState).lastError) ∧
    ((EndedGroup GroupType.Map c8St).isGood = false ∧
      (EndedGroup GroupType.Map c8St).lastError = some ErrorMsg.INVALID_TAG) :=
  ⟨c8_theorem.1 (EndedGroup GroupType.Seq initState)
      [Op.endedGroup GroupType.Map, Op.startedGroup GroupType.Seq] rfl,
   c8_theorem.2 c8St GroupType.Map rfl rfl (by decide)⟩

/-! ## Claim C3 -/

theorem run_setGlobals (gws : List SettingChange) :
    ∀ t : EmitterState,
      (run (gws.map Op.setGlobal) t).settings = restoreLog gws t.settings ∧
      (run (gws.map Op.setGlobal) t).globalModifiedSettings =
        t.globalModifiedSettings ++ gws ∧
      (run (gws.map Op.setGlobal) t).modifiedSettings = t.modifiedSettings ∧
      (run (gws.map Op.setGlobal) t).groups = t.groups := by
  induction gws with
  | nil => intro t; exact ⟨rfl, by simp, rfl, rfl⟩
  | cons c gws ih =>
    intro t
    have h := ih (SetGlobalSetting c t)
    refine ⟨?_, ?_, h.2.2.1, h.2.2.2⟩
    · rw [show run ((c :: gws).map Op.setGlobal) t =
        run (gws.map Op.setGlobal) (SetGlobalSetting c t) from rfl]
      rw [h.1, restoreLog_cons]
      rfl
    · rw [show run ((c :: gws).map Op.setGlobal) t =
        run (gws.map Op.setGlobal) (SetGlobalSetting c t) from rfl]
      rw [h.2.1]
      show (t.globalModifiedSettings ++ [c]) ++ gws = t.globalModifiedSettings ++ c :: gws
      simp

theorem middle_cons (k0 : GroupType) (ks : List GroupType) :
    middle (k0 :: ks) = Op.startedGroup k0 :: (middle ks ++ [Op.endedGroup k0]) := by
  unfold middle
  simp

/-- Net effect of opening a list of containers and then closing them all with
matching kinds: the global log is unchanged, the stack keeps its shape, the
pending local batch is flushed (unless the list is empty and nothing ran), and
each setting ends at its last globally-logged value if the global log mentions
it, else at the value the pending local batch would restore it to. -/
theorem middle_run (ks : List GroupType) :
    ∀ u : EmitterState,
      (run (middle ks) u).globalModifiedSettings = u.globalModifiedSettings ∧
      ShapeEq u.groups (run (middle ks) u).groups ∧
      (run (middle ks) u).modifiedSettings = (if ks = [] then u.modifiedSettings else []) ∧
      ∀ i, (run (middle ks) u).settings i =
        if ks = [] then u.settings i
        else (lastVal u.globalModifiedSettings i).getD
          (restoreLog u.modifiedSettings u.settings i) := by
  induction ks with
  | nil =>
    intro u
    exact ⟨rfl, shapeEq_refl _, by simp [middle], fun i => by simp [middle]⟩
  | cons k0 ks ih =>
    intro u
    have hrw : run (middle (k0 :: ks)) u =
        EndedGroup k0 (run (middle ks) (StartedGroup k0 u)) := by
      rw [middle_cons, run_cons, run_append, run_cons]
      rfl
    rw [hrw]
    have hw := ih (StartedGroup k0 u)
    have hwG : (run (middle ks) (StartedGroup k0 u)).globalModifiedSettings =
        u.globalModifiedSettings := by
      rw [hw.1, StartedGroup_globalModifiedSettings]
    have hwM : (run (middle ks) (StartedGroup k0 u)).modifiedSettings = [] := by
      rw [hw.2.2.1, StartedGroup_modifiedSettings]
      cases ks <;> simp
    have hwS : ∀ i, (run (middle ks) (StartedGroup k0 u)).settings i =
        if ks = [] then u.settings i
        else (lastVal u.globalModifiedSettings i).getD (u.settings i) := by
      intro i
      rw [hw.2.2.2 i, StartedGroup_settings, StartedGroup_modifiedSettings,
        StartedGroup_globalModifiedSettings]
      simp
    have hsh := hw.2.1
    rw [StartedGroup_groups] at hsh
    cases hwg : (run (middle ks) (StartedGroup k0 u)).groups with
    | nil => rw [hwg] at hsh; exact absurd hsh (by simp [ShapeEq])
    | cons g2 t2 =>
      rw [hwg] at hsh
      obtain ⟨hty2, hind2, hlog2, htl2⟩ := hsh
      have hty : g2.type = k0 := hty2
      have hlog : g2.modifiedSettings = u.modifiedSettings := hlog2
      have hpop := EndedGroup_match k0 (run (middle ks) (StartedGroup k0 u)) g2 t2 hwg hty
      refine ⟨?_, ?_, ?_, ?_⟩
      · rw [hpop]
        show (errStage (run (middle ks) (StartedGroup k0 u))).globalModifiedSettings =
          u.globalModifiedSettings
        rw [errStage_globalModifiedSettings, hwG]
      · rw [hpop]
        show ShapeEq u.groups t2
        rw [htl2]
        exact shapeEq_bumpHead u.groups
      · rw [hpop]
        show ([] : List SettingChange) = if (k0 :: ks : List GroupType) = [] then
          u.modifiedSettings else []
        simp
      · intro i
        rw [hpop]
        show restoreLog (run (middle ks) (StartedGroup k0 u)).modifiedSettings
            (restoreLog (run (middle ks) (StartedGroup k0 u)).globalModifiedSettings
              (restoreLog g2.modifiedSettings
                (run (middle ks) (StartedGroup k0 u)).settings)) i =
          if (k0 :: ks : List GroupType) = [] then u.settings i
          else (lastVal u.globalModifiedSettings i).getD
            (restoreLog u.modifiedSettings u.settings i)
        rw [hwM, restoreLog_nil, hwG]
        rw [if_neg (by simp)]
        rw [restoreLog_apply, restoreLog_apply, hlog]
        rw [hwS i]
        rw [restoreLog_apply]
        cases hg : lastVal u.globalModifiedSettings i <;> cases ks <;> simp [hg]

/-- C3: a local-scope write of any setting, made while a container C is the
innermost open container (opened in a state with any previously applied global
writes), stops being observable when C closes with a matching EndedGroup, at
any nesting depth: after any list of containers is opened and closed inside C
and C itself is closed, get() for that setting returns the value it had just
before the local write. -/
theorem c3_theorem (c : SettingChange) (gws : List SettingChange) (k : GroupType)
    (ks : List GroupType) :
    (run (middle ks ++ [Op.endedGroup k])
        (SetLocalSetting c
          (StartedGroup k (run (gws.map Op.setGlobal) initState)))).settings c.id =
      (StartedGroup k (run (gws.map Op.setGlobal) initState)).settings c.id := by
  have h0 := run_setGlobals gws initState
  have h0S : (run (gws.map Op.setGlobal) initState).settings = restoreLog gws initSettings :=
    h0.1
  have h0G : (run (gws.map Op.setGlobal) initState).globalModifiedSettings = gws := by
    rw [h0.2.1]
    show ([] : List SettingChange) ++ gws = gws
    simp
  have h0M : (run (gws.map Op.setGlobal) initState).modifiedSettings = [] := h0.2.2.1
  have h0g : (run (gws.map Op.setGlobal) initState).groups = [] := h0.2.2.2
  -- abbreviations by equation
  have h1S : (StartedGroup k (run (gws.map Op.setGlobal) initState)).settings =
      restoreLog gws initSettings := by
    rw [StartedGroup_settings, h0S]
  have h1M : (StartedGroup k (run (gws.map Op.setGlobal) initState)).modifiedSettings = [] :=
    StartedGroup_modifiedSettings k _
  have h1G : (StartedGroup k (run (gws.map Op.setGlobal) initState)).globalModifiedSettings
      = gws := by
    rw [StartedGroup_globalModifiedSettings, h0G]
  have h1g : (StartedGroup k (run (gws.map Op.setGlobal) initState)).groups =
      [newGroupOf k (run (gws.map Op.setGlobal) initState)] := by
    rw [StartedGroup_groups, h0g]
    rfl
  -- the state right after the local write
  have h2S : (SetLocalSetting c
      (StartedGroup k (run (gws.map Op.setGlobal) initState))).settings =
      Settings.set (restoreLog gws initSettings) c.id c.val := by
    show Settings.set (StartedGroup k (run (gws.map Op.setGlobal) initState)).settings
      c.id c.val = _
    rw [h1S]
  have h2M : (SetLocalSetting c
      (StartedGroup k (run (gws.map Op.setGlobal) initState))).modifiedSettings =
      [{ id := c.id,
         val := (StartedGroup k (run (gws.map Op.setGlobal) initState)).settings c.id }] := by
    show (StartedGroup k (run (gws.map Op.setGlobal) initState)).modifiedSettings ++ _ = _
    rw [h1M]
    rfl
  have h2G : (SetLocalSetting c
      (StartedGroup k (run (gws.map Op.setGlobal) initState))).globalModifiedSettings =
      gws := h1G
  have h2g : (SetLocalSetting c
      (StartedGroup k (run (gws.map Op.setGlobal) initState))).groups =
      [newGroupOf k (run (gws.map Op.setGlobal) initState)] := h1g
  have hrw2 : run (middle ks ++ [Op.endedGroup k])
      (SetLocalSetting c (StartedGroup k (run (gws.map Op.setGlobal) initState))) =
      EndedGroup k (run (middle ks)
        (SetLocalSetting c (StartedGroup k (run (gws.map Op.setGlobal) initState)))) := by
    rw [run_append, run_cons, run_nil]
    rfl
  rw [hrw2]
  have hw := middle_run ks (SetLocalSetting c
    (StartedGroup k (run (gws.map Op.setGlobal) initState)))
  have hsh := hw.2.1
  rw [h2g] at hsh
  cases hwg : (run (middle ks) (SetLocalSetting c
      (StartedGroup k (run (gws.map Op.setGlobal) initState)))).groups with
  | nil => rw [hwg] at hsh; exact absurd hsh (by simp [ShapeEq])
  | cons g2 t2 =>
    rw [hwg] at hsh
    obtain ⟨hty2, hind2, hlog2, htl2⟩ := hsh
    have hty : g2.type = k := hty2
    have hlog : g2.modifiedSettings = [] := by
      rw [hlog2]
      show (run (gws.map Op.setGlobal) initState).modifiedSettings = []
      exact h0M
    have hpop := EndedGroup_match k (run (middle ks) (SetLocalSetting c
      (StartedGroup k (run (gws.map Op.setGlobal) initState)))) g2 t2 hwg hty
    rw [hpop]
    show restoreLog (run (middle ks) (SetLocalSetting c
        (StartedGroup k (run (gws.map Op.setGlobal) initState)))).modifiedSettings
        (restoreLog (run (middle ks) (SetLocalSetting c
          (StartedGroup k (run (gws.map Op.setGlobal) initState)))).globalModifiedSettings
          (restoreLog g2.modifiedSettings
            (run (middle ks) (SetLocalSetting c
              (StartedGroup k (run (gws.map Op.setGlobal) initState)))).settings)) c.id =
      (StartedGroup k (run (gws.map Op.setGlobal) initState)).settings c.id
    rw [hlog, restoreLog_nil, hw.1, h2G, hw.2.2.1, h1S]
    by_cases hks : ks = []
    · -- no nested containers: the pending batch is replayed by the final close
      rw [if_pos hks, h2M, h1S]
      simp only [restoreLog_apply]
      simp [lastVal]
    · -- nested containers: the batch moved into the first nested group and was
      -- replayed when it was popped; the global log replay keeps the result
      rw [if_neg hks, restoreLog_nil]
      have hWS : (run (middle ks) (SetLocalSetting c
          (StartedGroup k (run (gws.map Op.setGlobal) initState)))).settings c.id =
          (lastVal gws c.id).getD (restoreLog gws initSettings c.id) := by
        rw [hw.2.2.2 c.id, if_neg hks, h2G, h2M, h2S, h1S]
        rw [restoreLog_apply]
        simp [lastVal, Settings.set_apply]
      rw [restoreLog_apply, hWS, restoreLog_apply]
      cases hg : lastVal gws c.id <;> simp [hg, restoreLog_apply]

/-! ## Claim C4 -/

theorem run_setLocals (ws : List SettingChange) :
    ∀ t : EmitterState,
      (run (ws.map Op.setLocal) t).groups = t.groups ∧
      (run (ws.map Op.setLocal) t).globalModifiedSettings = t.globalModifiedSettings := by
  induction ws with
  | nil => intro t; exact ⟨rfl, rfl⟩
  | cons c ws ih => intro t; exact ih (SetLocalSetting c t)

theorem StartedScalar_groups (st : EmitterState) :
    (StartedScalar st).groups = bumpHead st.groups := by
  show (StartedNode st).groups = bumpHead st.groups
  exact StartedNode_groups st

theorem StartedScalar_modifiedSettings (st : EmitterState) :
    (StartedScalar st).modifiedSettings = [] := rfl

theorem StartedScalar_globalModifiedSettings (st : EmitterState) :
    (StartedScalar st).globalModifiedSettings = st.globalModifiedSettings := by
  show (StartedNode st).globalModifiedSettings = st.globalModifiedSettings
  exact StartedNode_globalModifiedSettings st

/-- Invariant carried through a C4Ops sequence: the global log keeps v as the
last logged value for setting s, the pending local batch is empty between items
inside a container, the current value of s is v between top-level items, and
the group stack keeps its shape. -/
theorem c4_master (s : SettingId) (v : SVal) (b : Bool) (ops : List Op)
    (h : C4Ops s b ops) :
    ∀ t : EmitterState,
      lastVal t.globalModifiedSettings s = some v →
      (b = false → t.modifiedSettings = []) →
      (b = true → t.settings s = v) →
      lastVal (run ops t).globalModifiedSettings s = some v ∧
      (b = false → (run ops t).modifiedSettings = []) ∧
      (b = true → (run ops t).settings s = v) ∧
      ShapeEq t.groups (run ops t).groups := by
  induction h with
  | nil b =>
    intro t h1 h2 h3
    exact ⟨h1, h2, h3, shapeEq_refl _⟩
  | glob b c rest hcs hrest ih =>
    intro t h1 h2 h3
    have h1g : lastVal (SetGlobalSetting c t).globalModifiedSettings s = some v := by
      show lastVal (t.globalModifiedSettings ++ [c]) s = some v
      rw [lastVal_append_other _ _ _ hcs]
      exact h1
    have h3g : b = true → (SetGlobalSetting c t).settings s = v := by
      intro hb
      show Settings.set t.settings c.id c.val s = v
      rw [Settings.set_apply, if_neg (fun hh => hcs hh.symm)]
      exact h3 hb
    exact ih (SetGlobalSetting c t) h1g (fun hb => h2 hb) h3g
  | scal ws rest hrest ih =>
    intro t h1 h2 h3
    have hsp : run (ws.map Op.setLocal ++ Op.startedScalar :: rest) t =
        run rest (StartedScalar (run (ws.map Op.setLocal) t)) := by
      rw [run_append, run_cons]
      rfl
    rw [hsp]
    have hloc := run_setLocals ws t
    have h1s : lastVal
        (StartedScalar (run (ws.map Op.setLocal) t)).globalModifiedSettings s = some v := by
      rw [StartedScalar_globalModifiedSettings, hloc.2]
      exact h1
    have ih2 := ih (StartedScalar (run (ws.map Op.setLocal) t)) h1s
      (fun _ => StartedScalar_modifiedSettings _)
      (fun hb => Bool.noConfusion hb)
    refine ⟨ih2.1, ih2.2.1, ih2.2.2.1, ?_⟩
    refine shapeEq_trans ?_ ih2.2.2.2
    rw [StartedScalar_groups, hloc.1]
    exact shapeEq_bumpHead t.groups
  | pair b ws k body rest hbody hrest ihbody ihrest =>
    intro t h1 h2 h3
    have hsp : run (ws.map Op.setLocal ++
        Op.startedGroup k :: (body ++ Op.endedGroup k :: rest)) t =
        run rest (EndedGroup k
          (run body (StartedGroup k (run (ws.map Op.setLocal) t)))) := by
      rw [run_append, run_cons, run_append, run_cons]
      rfl
    rw [hsp]
    have hloc := run_setLocals ws t
    have hu1G : (StartedGroup k (run (ws.map Op.setLocal) t)).globalModifiedSettings =
        t.globalModifiedSettings := by
      rw [StartedGroup_globalModifiedSettings, hloc.2]
    have hbodyr := ihbody (StartedGroup k (run (ws.map Op.setLocal) t))
      (by rw [hu1G]; exact h1)
      (fun _ => StartedGroup_modifiedSettings k _)
      (fun hb => Bool.noConfusion hb)
    have hsh := hbodyr.2.2.2
    rw [StartedGroup_groups] at hsh
    cases hwg : (run body (StartedGroup k (run (ws.map Op.setLocal) t))).groups with
    | nil => rw [hwg] at hsh; exact absurd hsh (by simp [ShapeEq])
    | cons g2 t2 =>
      rw [hwg] at hsh
      obtain ⟨hty2, hind2, hlog2, htl2⟩ := hsh
      have hty : g2.type = k := hty2
      have hpop := EndedGroup_match k
        (run body (StartedGroup k (run (ws.map Op.setLocal) t))) g2 t2 hwg hty
      have hpG : (EndedGroup k
          (run body (StartedGroup k (run (ws.map Op.setLocal) t)))).globalModifiedSettings =
          (run body (StartedGroup k (run (ws.map Op.setLocal) t))).globalModifiedSettings := by
        rw [hpop]
        show (errStage (run body (StartedGroup k
          (run (ws.map Op.setLocal) t)))).globalModifiedSettings = _
        rw [errStage_globalModifiedSettings]
      have hpGs : lastVal (EndedGroup k
          (run body (StartedGroup k (run (ws.map Op.setLocal) t)))).globalModifiedSettings s
          = some v := by
        rw [hpG]
        exact hbodyr.1
      have hpM : (EndedGroup k
          (run body (StartedGroup k (run (ws.map Op.setLocal) t)))).modifiedSettings = [] := by
        rw [hpop]
      have hpS : (EndedGroup k
          (run body (StartedGroup k (run (ws.map Op.setLocal) t)))).settings s = v := by
        rw [hpop]
        show restoreLog
            (run body (StartedGroup k (run (ws.map Op.setLocal) t))).modifiedSettings
            (restoreLog
              (run body (StartedGroup k (run (ws.map Op.setLocal) t))).globalModifiedSettings
              (restoreLog g2.modifiedSettings
                (run body (StartedGroup k (run (ws.map Op.setLocal) t))).settings)) s = v
        rw [hbodyr.2.1 rfl, restoreLog_nil, restoreLog_apply, hbodyr.1]
        rfl
      have hpg : (EndedGroup k
          (run body (StartedGroup k (run (ws.map Op.setLocal) t)))).groups = t2 := by
        rw [hpop]
      have ihr := ihrest (EndedGroup k
          (run body (StartedGroup k (run (ws.map Op.setLocal) t))))
        hpGs (fun _ => hpM) (fun _ => hpS)
      refine ⟨ihr.1, ihr.2.1, ihr.2.2.1, ?_⟩
      refine shapeEq_trans ?_ ihr.2.2.2
      rw [hpg, htl2, hloc.1]
      exact shapeEq_bumpHead t.groups

/-- C4: after a global write of value v to setting s, get() for s still
returns v after any C4Ops sequence: any number of container open/close pairs
(arbitrarily nested), in which local overrides - of any setting, s included -
are applied as manipulator prefixes of emitted nodes and global writes touch
only other settings. -/
theorem c4_theorem (st : EmitterState) (s : SettingId) (v : SVal) (ops : List Op)
    (h : C4Ops s true ops) :
    (run ops (SetGlobalSetting { id := s, val := v } st)).settings s = v := by
  have hm := c4_master s v true ops h (SetGlobalSetting { id := s, val := v } st)
    (by show lastVal (st.globalModifiedSettings ++ [{ id := s, val := v }]) s = some v
        exact lastVal_append_self st.globalModifiedSettings { id := s, val := v })
    (fun hb => Bool.noConfusion hb)
    (fun _ => by
      show Settings.set st.settings s v s = v
      rw [Settings.set_apply]
      simp)
  exact hm.2.2.1 rfl

/-- C4 witness: set the integer format to Hex globally, then open a Seq, apply
a local Oct override to the next scalar, emit the scalar and close the Seq;
get() for the integer format reports Hex again. -/
theorem c4_witness :
    (run [Op.startedGroup GroupType.Seq,
        Op.setLocal { id := SettingId.intFmt, val := SVal.manip EMITTER_MANIP.Oct },
        Op.startedScalar, Op.endedGroup GroupType.Seq]
      (SetGlobalSetting { id := SettingId.intFmt, val := SVal.manip EMITTER_MANIP.Hex }
        initState)).settings SettingId.intFmt = SVal.manip EMITTER_MANIP.Hex :=
  c4_theorem initState SettingId.intFmt (SVal.manip EMITTER_MANIP.Hex) _
    (C4Ops.pair true [] GroupType.Seq
      ([{ id := SettingId.intFmt, val := SVal.manip EMITTER_MANIP.Oct }].map Op.setLocal ++
        Op.startedScalar :: []) []
      (C4Ops.scal [{ id := SettingId.intFmt, val := SVal.manip EMITTER_MANIP.Oct }] []
        (C4Ops.nil false))
      (C4Ops.nil true))

end YamlCpp
